import Mathlib

/-!
Verification of the gdu unix-socket analysis server.

The development shallowly embeds the core of the repository:

* the cancellable wait group (`wait.go`),
* the parallel and sequential analyzers (`parallel.go`, `sequential.go`),
* the shared scan coordinator (`server.go`),
* the request dispatcher and framing loop of the socket server (`protocol.go`).

File sizes and counters are modelled as `Nat` (directory listings report
non-negative sizes), paths as `String`.  The cooperative cancellation flag is
modelled as a value that is constant for the duration of one walk: the claims
under study always start a walk strictly before or strictly after the flag
flips.  The tree aggregation (`Dir.UpdateStats` / `GetSize` / `GetItemCount`,
which live outside the analyzed sources) is modelled from the spec as the
recursive aggregate functions `aggSize` / `aggCount`.
-/

namespace Gdu

/-! ### Filesystem model

A directory entry as returned by `os.ReadDir`.  A directory carries a
`readErr` flag: listing it fails (the error is logged and the listing is
empty).  A file carries an `infoErr` flag (its `Info()` call fails) and a
`special` flag (symlink or socket mode bit, which `getFlag` turns into `'@'`).
Symlink following is disabled on the server path (`CreateAnalyzer` leaves
`followSymlinks` false and the server never sets it), so the follow branch of
the walk loop is never taken and is not modelled.
-/

inductive FSNode : Type where
  | file (name : String) (size : Nat) (infoErr : Bool) (special : Bool)
  | dir (name : String) (readErr : Bool) (entries : List FSNode)
deriving Repr

/-- Model of `filepath.Join` for the slash-free names of the model. -/
def pathJoin (path name : String) : String := path ++ "/" ++ name

/-- Model of `filepath.Base`: the last slash-separated component. -/
def baseName (path : String) : String := (path.splitOn "/").getLastD ""

/-- `getDirFlag` from `parallel.go`: listing error gives an errored dir,
an empty listing an empty dir. -/
def getDirFlag (err : Bool) (items : Nat) : Char :=
  if err then '!'
  else if items == 0 then 'e'
  else ' '

/-- `getFlag` from `parallel.go`: symlinks and sockets are special files. -/
def getFlag (special : Bool) : Char :=
  if special then '@' else ' '

/-! ### The entry tree built by a walk

`File` and `Dir` of the `analyze` package, fused into one tagged variant as
built by `processDir`: a file keeps its own size, a directory its children in
the order they were added by `AddFile`.  Each node also records the path the
walk reached it at (the `analyze` package reconstructs it from `BasePath` and
the parent chain). -/

inductive Entry : Type where
  | fileE (name path : String) (flag : Char) (size : Nat)
  | dirE (name path : String) (flag : Char) (children : List Entry)
deriving Repr

def Entry.name : Entry → String
  | .fileE n _ _ _ => n
  | .dirE n _ _ _ => n

def Entry.path : Entry → String
  | .fileE _ p _ _ => p
  | .dirE _ p _ _ => p

def Entry.flag : Entry → Char
  | .fileE _ _ f _ => f
  | .dirE _ _ f _ => f

def Entry.isDir : Entry → Bool
  | .fileE _ _ _ _ => false
  | .dirE _ _ _ _ => true

def Entry.childList : Entry → List Entry
  | .fileE _ _ _ _ => []
  | .dirE _ _ _ cs => cs

mutual

/-- Modelled from the spec: `Dir.UpdateStats` / `GetSize` are not among the
analyzed sources; per the spec a directory's aggregate size is the sum of the
aggregate sizes of all the entries it holds, a file's size is its own. -/
def aggSize : Entry → Nat
  | .fileE _ _ _ s => s
  | .dirE _ _ _ cs => aggSizeList cs

/-- Aggregate size of a list of sibling entries. -/
def aggSizeList : List Entry → Nat
  | [] => 0
  | e :: es => aggSize e + aggSizeList es

end

mutual

/-- Modelled from the spec: `GetItemCount` — a directory counts itself plus
all its descendants, a file counts one. -/
def aggCount : Entry → Nat
  | .fileE _ _ _ _ => 1
  | .dirE _ _ _ cs => 1 + aggCountList cs

/-- Aggregate item count of a list of sibling entries. -/
def aggCountList : List Entry → Nat
  | [] => 0
  | e :: es => aggCount e + aggCountList es

end

/-! ### The sequential walk (`SequentialAnalyzer.processDir`)

The walk is parametrized by the cancellation flag `c` (constant over one
walk, see the header), the ignore predicate `ig` (the server always passes
the constant-false predicate) and the path the directory was reached at.
A cancelled walk returns the errored placeholder directory immediately; a
directory whose listing fails is logged, left with no files and flagged by
`getDirFlag`; a file whose `Info()` fails flips the owning directory's flag
to `'!'` and is skipped; any other file is added with its size accumulated
into the directory's running total (the total feeds the progress delta). -/

structure SeqLoopRes where
  children : List Entry
  errFound : Bool
  total : Nat

mutual

def seqProcessDir (c : Bool) (ig : String → String → Bool)
    (path name : String) (rerr : Bool) (ents : List FSNode) : Entry :=
  if c then .dirE name path '!' []
  else if rerr then .dirE name path '!' []
  else
    let r := seqLoop c ig path ents
    let flag := if r.errFound then '!' else getDirFlag false ents.length
    .dirE name path flag r.children

def seqLoop (c : Bool) (ig : String → String → Bool) (path : String) :
    List FSNode → SeqLoopRes
  | [] => ⟨[], false, 0⟩
  | f :: fs =>
    if c then ⟨[], false, 0⟩
    else
      match f with
      | .dir n rerr ents =>
        let entryPath := pathJoin path n
        if ig n entryPath then seqLoop c ig path fs
        else
          let sub := seqProcessDir c ig entryPath n rerr ents
          let rest := seqLoop c ig path fs
          ⟨sub :: rest.children, rest.errFound, rest.total⟩
      | .file n sz ierr sp =>
        let rest := seqLoop c ig path fs
        if ierr then ⟨rest.children, true, rest.total⟩
        else ⟨.fileE n (pathJoin path n) (getFlag sp) sz :: rest.children,
              rest.errFound, rest.total + sz⟩

end

/-! ### The parallel walk (`ParallelAnalyzer.processDir`)

Identical except for scheduling: subdirectory walks are spawned as tasks and
their results are appended to the directory's children only after all the
files, in completion order.  `parProcessDir` is the canonical representative
in which subdirectories complete in spawn order; an arbitrary interleaving of
completions is related to it by `PermTree` below. -/

structure ParLoopRes where
  fileRes : List Entry
  subRes : List Entry
  errFound : Bool
  total : Nat

mutual

def parProcessDir (c : Bool) (ig : String → String → Bool)
    (path name : String) (rerr : Bool) (ents : List FSNode) : Entry :=
  if c then .dirE name path '!' []
  else if rerr then .dirE name path '!' []
  else
    let r := parLoop c ig path ents
    let flag := if r.errFound then '!' else getDirFlag false ents.length
    .dirE name path flag (r.fileRes ++ r.subRes)

def parLoop (c : Bool) (ig : String → String → Bool) (path : String) :
    List FSNode → ParLoopRes
  | [] => ⟨[], [], false, 0⟩
  | f :: fs =>
    if c then ⟨[], [], false, 0⟩
    else
      match f with
      | .dir n rerr ents =>
        let entryPath := pathJoin path n
        if ig n entryPath then parLoop c ig path fs
        else
          let sub := parProcessDir c ig entryPath n rerr ents
          let rest := parLoop c ig path fs
          ⟨rest.fileRes, sub :: rest.subRes, rest.errFound, rest.total⟩
      | .file n sz ierr sp =>
        let rest := parLoop c ig path fs
        if ierr then ⟨rest.fileRes, rest.subRes, true, rest.total⟩
        else ⟨.fileE n (pathJoin path n) (getFlag sp) sz :: rest.fileRes,
              rest.subRes, rest.errFound, rest.total + sz⟩

end

/-! ### Relating the two schedulings

A run of the parallel walk differs from `parProcessDir` only in the order in
which completed subdirectory tasks come off the collection channel, at every
directory independently.  `PermTree` captures exactly that: two trees are
related when they agree on name, path and flag at every node and the children
lists are pointwise related up to a permutation.  Every possible outcome of
the parallel walk is `PermTree`-related to the canonical `parProcessDir`
result, and `parProcessDir` itself is `PermTree`-related to the sequential
result. -/

mutual

def PermTree : Entry → Entry → Prop
  | .fileE n p f s, e' => e' = .fileE n p f s
  | .dirE n p f cs, e' =>
      ∃ cs' mid, e' = .dirE n p f cs' ∧ ForestRel cs mid ∧ mid.Perm cs'

/-- Pointwise `PermTree` on children lists. -/
def ForestRel : List Entry → List Entry → Prop
  | [], l => l = []
  | e :: es, l => ∃ e' l', l = e' :: l' ∧ PermTree e e' ∧ ForestRel es l'

end

theorem permTree_file (n p : String) (f : Char) (s : Nat) :
    PermTree (.fileE n p f s) (.fileE n p f s) := by
  simp [PermTree]

theorem permTree_dir {n p : String} {f : Char} {cs cs' mid : List Entry}
    (h1 : ForestRel cs mid) (h2 : mid.Perm cs') :
    PermTree (.dirE n p f cs) (.dirE n p f cs') := by
  simp only [PermTree]
  exact ⟨cs', mid, rfl, h1, h2⟩

theorem forestRel_nil : ForestRel [] [] := by
  simp [ForestRel]

theorem forestRel_cons {e e' : Entry} {es l' : List Entry}
    (h : PermTree e e') (hs : ForestRel es l') :
    ForestRel (e :: es) (e' :: l') := by
  simp only [ForestRel]
  exact ⟨e', l', rfl, h, hs⟩

theorem forestRel_append : ∀ {a b fa fb : List Entry},
    ForestRel a fa → ForestRel b fb → ForestRel (a ++ b) (fa ++ fb) := by
  intro a
  induction a with
  | nil =>
    intro b fa fb ha hb
    simp only [ForestRel] at ha
    subst ha
    simpa using hb
  | cons e es ih =>
    intro b fa fb ha hb
    obtain ⟨e', l', rfl, he, hes⟩ := ha
    exact ⟨e', l' ++ fb, by simp, he, ih hes hb⟩

theorem aggSizeList_eq_sum (l : List Entry) :
    aggSizeList l = (l.map aggSize).sum := by
  induction l with
  | nil => rfl
  | cons e es ih => simp [aggSizeList, ih]

theorem aggCountList_eq_sum (l : List Entry) :
    aggCountList l = (l.map aggCount).sum := by
  induction l with
  | nil => rfl
  | cons e es ih => simp [aggCountList, ih]

theorem aggSizeList_perm {l l' : List Entry} (h : l.Perm l') :
    aggSizeList l = aggSizeList l' := by
  rw [aggSizeList_eq_sum, aggSizeList_eq_sum]
  exact (h.map aggSize).sum_eq

theorem aggCountList_perm {l l' : List Entry} (h : l.Perm l') :
    aggCountList l = aggCountList l' := by
  rw [aggCountList_eq_sum, aggCountList_eq_sum]
  exact (h.map aggCount).sum_eq

mutual

theorem permTree_agg : ∀ (e e' : Entry), PermTree e e' →
    aggSize e = aggSize e' ∧ aggCount e = aggCount e'
  | .fileE n p f s, e', h => by
    simp only [PermTree] at h
    subst h
    exact ⟨rfl, rfl⟩
  | .dirE n p f cs, e', h => by
    obtain ⟨cs', mid, rfl, hf, hp⟩ := h
    have h1 := forestRel_agg cs mid hf
    have h2 := aggSizeList_perm hp
    have h3 := aggCountList_perm hp
    constructor
    · simp only [aggSize]
      omega
    · simp only [aggCount]
      omega

theorem forestRel_agg : ∀ (l l' : List Entry), ForestRel l l' →
    aggSizeList l = aggSizeList l' ∧ aggCountList l = aggCountList l'
  | [], l', h => by
    simp only [ForestRel] at h
    subst h
    exact ⟨rfl, rfl⟩
  | e :: es, l', h => by
    obtain ⟨e', rest, rfl, he, hes⟩ := h
    have h1 := permTree_agg e e' he
    have h2 := forestRel_agg es rest hes
    constructor
    · simp only [aggSizeList]
      omega
    · simp only [aggCountList]
      omega

end

mutual

/-- The canonical parallel walk result is `PermTree`-related to the
sequential walk result on the same filesystem. -/
theorem parSeq_tree : ∀ (c : Bool) (ig : String → String → Bool)
    (path name : String) (rerr : Bool) (ents : List FSNode),
    PermTree (parProcessDir c ig path name rerr ents)
      (seqProcessDir c ig path name rerr ents)
  | c, ig, path, name, rerr, ents => by
    cases c with
    | true =>
      simp only [parProcessDir, seqProcessDir, reduceIte]
      exact permTree_dir forestRel_nil (.nil)
    | false =>
      cases rerr with
      | true =>
        simp only [parProcessDir, seqProcessDir, reduceIte]
        exact permTree_dir forestRel_nil (.nil)
      | false =>
        obtain ⟨herr, fmid, smid, hf, hs, hperm⟩ :=
          parSeq_loop false ig path ents
        simp only [parProcessDir, seqProcessDir, reduceIte]
        rw [herr]
        exact permTree_dir (forestRel_append hf hs) hperm

/-- The parallel loop and the sequential loop agree on the error flag, and
the parallel children (files first, then subdirectories in spawn order) are
pointwise related to a permutation of the sequential children. -/
theorem parSeq_loop : ∀ (c : Bool) (ig : String → String → Bool)
    (path : String) (l : List FSNode),
    (parLoop c ig path l).errFound = (seqLoop c ig path l).errFound ∧
    ∃ fmid smid, ForestRel (parLoop c ig path l).fileRes fmid ∧
      ForestRel (parLoop c ig path l).subRes smid ∧
      (fmid ++ smid).Perm (seqLoop c ig path l).children
  | c, ig, path, [] => by
    simp only [parLoop, seqLoop]
    exact ⟨trivial, [], [], forestRel_nil, forestRel_nil, .nil⟩
  | c, ig, path, f :: fs => by
    cases c with
    | true =>
      cases f with
      | dir n rerr ents =>
        simp only [parLoop, seqLoop, reduceIte]
        exact ⟨trivial, [], [], forestRel_nil, forestRel_nil, .nil⟩
      | file n sz ierr sp =>
        simp only [parLoop, seqLoop, reduceIte]
        exact ⟨trivial, [], [], forestRel_nil, forestRel_nil, .nil⟩
    | false =>
      match f with
      | .dir n rerr ents =>
        obtain ⟨herr, fmid, smid, hf, hs, hperm⟩ :=
          parSeq_loop false ig path fs
        cases hig : ig n (pathJoin path n) with
        | true =>
          simp only [parLoop, seqLoop, reduceIte, hig]
          exact ⟨herr, fmid, smid, hf, hs, hperm⟩
        | false =>
          simp only [parLoop, seqLoop, reduceIte, hig]
          exact ⟨herr, fmid,
            seqProcessDir false ig (pathJoin path n) n rerr ents :: smid, hf,
            forestRel_cons
              (parSeq_tree false ig (pathJoin path n) n rerr ents) hs,
            List.perm_middle.trans (.cons _ hperm)⟩
      | .file n sz ierr sp =>
        obtain ⟨herr, fmid, smid, hf, hs, hperm⟩ :=
          parSeq_loop false ig path fs
        cases ierr with
        | true =>
          simp only [parLoop, seqLoop, reduceIte]
          exact ⟨rfl, fmid, smid, hf, hs, hperm⟩
        | false =>
          simp only [parLoop, seqLoop, reduceIte]
          exact ⟨herr,
            Entry.fileE n (pathJoin path n) (getFlag sp) sz :: fmid, smid,
            forestRel_cons (permTree_file n (pathJoin path n) (getFlag sp) sz)
              hf,
            hs, hperm.cons _⟩

end

/-! ### Progress aggregation (`updateProgress` in `parallel.go` / `sequential.go`)

`common.CurrentProgress`: item counts and total sizes are reported by
`os.ReadDir` / `Info()` and are non-negative, hence `Nat`. -/

structure CurrentProgress where
  currentItemName : String
  itemCount : Nat
  totalSize : Nat
deriving Repr

def zeroProgress : CurrentProgress := ⟨"", 0, 0⟩

/-- One iteration of the `updateProgress` loop: the current item name is
replaced, the counters are accumulated. -/
def updateProgressStep (p delta : CurrentProgress) : CurrentProgress :=
  ⟨delta.currentItemName, p.itemCount + delta.itemCount,
   p.totalSize + delta.totalSize⟩

/-- The cumulative snapshot after folding a list of per-directory deltas, in
the order the aggregator received them. -/
def updateProgressFold (p : CurrentProgress) (ds : List CurrentProgress) :
    CurrentProgress :=
  ds.foldl updateProgressStep p

/-! ### The cancellable wait group (`wait.go`)

`wait` is a mutex locked by `Init` and unlocked when the count reaches zero
or the cancel channel closes; `cancel` is a channel, and closing a closed
channel is a Go runtime fault, so `wgCancel` returns `none` in that case. -/

structure WaitGroup where
  value : Int
  cancelClosed : Bool
  waitLocked : Bool
deriving Repr

/-- `Init`: locks the wait mutex and creates the cancel channel. -/
def initWG : WaitGroup := ⟨0, false, true⟩

/-- `Add`: increments the value. -/
def wgAdd (s : WaitGroup) (n : Int) : WaitGroup :=
  { s with value := s.value + n }

/-- `check`: once the value reaches zero the wait mutex is released. -/
def wgCheck (s : WaitGroup) : WaitGroup :=
  if s.value = 0 then { s with waitLocked := false } else s

/-- `Done`: decrements the value by one, then `check`. -/
def wgDone (s : WaitGroup) : WaitGroup :=
  wgCheck { s with value := s.value - 1 }

/-- `Cancel` is `close(s.cancel)`: closing an already closed channel is a
runtime fault, modelled as `none`. -/
def wgCancel (s : WaitGroup) : Option WaitGroup :=
  if s.cancelClosed then none else some { s with cancelClosed := true }

/-- `Wait` blocks while the value is positive and the wait mutex is held;
it returns (in a quiescent state) exactly when the value is non-positive,
the cancel channel is closed (the helper goroutine then unlocks the wait
mutex), or the wait mutex is already free. -/
def waitUnblocked (s : WaitGroup) : Bool :=
  decide (s.value ≤ 0) || s.cancelClosed || !s.waitLocked

/-! ### The analyzer's cancellation guard (`ParallelAnalyzer.Cancel`)

Only the fields `Cancel` touches are modelled; `progressDoneOnce` makes the
`progressDoneChan` close idempotent on its own. -/

structure AnalyzerState where
  cancelled : Bool
  wg : WaitGroup
  progressDoneClosed : Bool
deriving Repr

def initAnalyzer : AnalyzerState := ⟨false, initWG, false⟩

/-- `ParallelAnalyzer.Cancel`: a no-op when already cancelled; otherwise it
sets the flag, cancels the wait group and closes the progress-done channel
(through `sync.Once`).  The wait-group cancel can fault if its channel was
already closed, which the `cancelled` guard is there to prevent. -/
def analyzerCancel (a : AnalyzerState) : Option AnalyzerState :=
  if a.cancelled then some a
  else (wgCancel a.wg).map fun w => ⟨true, w, true⟩

/-- `ResetProgress` (defined on the analyzer, but never invoked by any
server operation): fresh progress, fresh channels, fresh wait group, and the
cancelled flag cleared. -/
def analyzerResetProgress (_ : AnalyzerState) : AnalyzerState :=
  ⟨false, initWG, false⟩

/-! ### The scan coordinator (`Server` in `server.go`)

`progress` is the server-side snapshot `s.progress`, which `Server.scan`
zeroes on entry and the monitor goroutine overwrites with each published
snapshot; `analyzerProgress` is the analyzer's persistent cumulative
accumulator `a.progress`, into which `updateProgress` folds every delta and
which only `ResetProgress` — never invoked by any server operation — would
clear.  `cancelFuncSet` models `s.cancelFunc != nil`; `analyzerCancelled` is
the analyzer's `cancelled` flag as seen by the server; `activePath` records
the path captured by the walk currently in flight (the closure argument of
`AnalyzeDir`).  The filesystem is abstracted as `fsys : String → Bool ×
List FSNode`, giving the listing error flag and the entries at a root
path. -/

structure ServerState where
  isScanning : Bool
  progress : CurrentProgress
  analyzerProgress : CurrentProgress
  currentDir : Option Entry
  cancelFuncSet : Bool
  analyzerCancelled : Bool
  activePath : Option String
deriving Repr

def initServer : ServerState :=
  ⟨false, zeroProgress, zeroProgress, none, false, false, none⟩

/-- Entry into `Server.scan` (lines 66–89 of `server.go`): an in-flight scan
makes the call return at once; otherwise the scanning flag is set, the
progress snapshot is cleared, the cancel function is installed and the walk
for `path` begins. -/
def scanBegin (st : ServerState) (path : String) : ServerState × Bool :=
  if st.isScanning then (st, false)
  else ({ st with
          isScanning := true,
          progress := zeroProgress,
          cancelFuncSet := true,
          activePath := some path }, true)

/-- `AnalyzeDir` as invoked by `Server.scan`: the parallel walk over the
listing at `path`, constant-false ignore predicate.  Aggregates are computed
by the modelled `UpdateStats` (`aggSize` / `aggCount`). -/
def analyzeDir (cancelled : Bool) (fsys : String → Bool × List FSNode)
    (path : String) : Entry :=
  parProcessDir cancelled (fun _ _ => false) path (baseName path)
    (fsys path).1 (fsys path).2

/-- Tail of `Server.scan` (lines 106–117): the finished tree is stored and
the deferred handler clears the scanning flag. -/
def scanFinish (fsys : String → Bool × List FSNode) (st : ServerState) :
    ServerState :=
  match st.activePath with
  | none => st
  | some p =>
    { st with
      currentDir := some (analyzeDir st.analyzerCancelled fsys p),
      isScanning := false,
      activePath := none }

/-- A whole `Server.scan` call run to completion without interleaving. -/
def serverScan (fsys : String → Bool × List FSNode) (st : ServerState)
    (path : String) : ServerState :=
  let r := scanBegin st path
  if r.2 then scanFinish fsys r.1 else r.1

/-- The `cancel` method body in `processRequest`: the analyzer is cancelled
only when a cancel function is installed; scanning flag, progress snapshot
and scan results are cleared unconditionally. -/
def cancelRequest (st : ServerState) : ServerState :=
  let st1 := if st.cancelFuncSet
    then { st with analyzerCancelled := true, cancelFuncSet := false }
    else st
  { st1 with
    isScanning := false,
    progress := zeroProgress,
    currentDir := none }

/-- The `k`-th cumulative snapshot the aggregator publishes during a scan
whose walk emits the delta list `ds`: `updateProgress` folds the deltas into
the analyzer's persistent accumulator, which held `acc` when the scan began
(nothing reset it between scans).  The snapshots a client actually sees are
a subsequence of these, the single-slot output channel being lossy. -/
def publishedSnapshot (acc : CurrentProgress) (ds : List CurrentProgress)
    (k : Nat) : CurrentProgress :=
  updateProgressFold acc (ds.take k)

/-- The progress side of one complete `Server.scan` call whose walk emits
the delta list `ds`: entry zeroes the server-side snapshot, the aggregator
folds every delta into the analyzer's persistent accumulator, the monitor
leaves the last published snapshot in the server-side field (when any delta
was emitted), and the deferred handler clears the scanning flag. -/
def scanProgressRun (st : ServerState) (path : String)
    (ds : List CurrentProgress) : ServerState :=
  let r := scanBegin st path
  if r.2 then
    { r.1 with
      isScanning := false,
      analyzerProgress := updateProgressFold r.1.analyzerProgress ds,
      progress := match ds with
        | [] => r.1.progress
        | _ => updateProgressFold r.1.analyzerProgress ds }
  else r.1

/-! ### Request parameters (`getStringParam` / `getIntParam` in `protocol.go`)

A decoded JSON parameter value: a string, a number (JSON numbers arrive as
`float64` and are truncated to `int`; the truncated value is what the model
carries), or anything else. -/

inductive PValue : Type where
  | str (s : String)
  | num (n : Int)
  | other
deriving Repr

/-- Go's two-value return `(string, error)` is kept as a pair: the value and
an optional error message.  Missing map, missing key and a non-string value
each produce an error alongside the zero value. -/
def getStringParam (params : Option (List (String × PValue))) (key : String) :
    String × Option String :=
  match params with
  | none => ("", some ("missing parameter: " ++ key))
  | some l =>
    match l.lookup key with
    | none => ("", some ("missing parameter: " ++ key))
    | some (.str s) => (s, none)
    | some _ => ("", some ("parameter " ++ key ++ " must be string"))

/-- `getIntParam`: absent map or key give the default with no error; a
number is accepted; any other type gives the default together with an
error. -/
def getIntParam (params : Option (List (String × PValue))) (key : String)
    (dflt : Int) : Int × Option String :=
  match params with
  | none => (dflt, none)
  | some l =>
    match l.lookup key with
    | none => (dflt, none)
    | some (.num n) => (n, none)
    | some _ => (dflt, some ("parameter " ++ key ++ " must be integer"))

/-! ### Requests, responses and the dispatcher (`processRequest`) -/

structure Request where
  id : String
  method : String
  params : Option (List (String × PValue))
deriving Repr

/-- `DirInfo` as serialized for the `directory` method.  `Size` and
`ItemCount` read the aggregates of the held tree (`GetSize` /
`GetItemCount`, modelled by `aggSize` / `aggCount`); the platform-derived
physical size and mtime live outside the analyzed sources and are
omitted. -/
structure DirInfo : Type where
  name : String
  dirPath : String
  size : Nat
  itemCount : Nat
  flag : Char
  isDir : Bool
  children : List DirInfo
deriving Repr

/-- The payloads the four methods can answer with. -/
inductive RespData : Type where
  | started (b : Bool)
  | cancelled (b : Bool)
  | progressData (isScanning : Bool) (currentItemName : String)
      (itemCount : Nat) (totalSize : Nat)
  | dirData (d : DirInfo)
deriving Repr

structure Response where
  id : String
  success : Bool
  data : Option RespData
  error : Option String
deriving Repr

mutual

/-- `convertToDirInfo`: children are populated only for a directory and only
while the remaining depth is positive. -/
def convertToDirInfo : Entry → Int → DirInfo
  | .fileE n p f s, _ => ⟨n, p, s, 1, f, false, []⟩
  | .dirE n p f cs, depth =>
    ⟨n, p, aggSizeList cs, 1 + aggCountList cs, f, true,
     if 0 < depth then convertChildren cs (depth - 1) else []⟩

/-- The loop over `GetFiles()` inside `convertToDirInfo`. -/
def convertChildren : List Entry → Int → List DirInfo
  | [], _ => []
  | e :: es, d => convertToDirInfo e d :: convertChildren es d

end

mutual

/-- `findDirectory`: the root itself when the path matches, otherwise a
depth-first first-match search of the children (files have none). -/
def findDirectory : Entry → String → Option Entry
  | .fileE n p f s, path =>
    if p = path then some (.fileE n p f s) else none
  | .dirE n p f cs, path =>
    if p = path then some (.dirE n p f cs) else findDirIn cs path

/-- The child loop of `findDirectory`. -/
def findDirIn : List Entry → String → Option Entry
  | [], _ => none
  | e :: es, path =>
    match findDirectory e path with
    | some r => some r
    | none => findDirIn es path

end

/-- `processRequest`: dispatch on the method name.  The result is the
response, the server state after the synchronous part of the handler, and
the path of a walk spawned by a successful `scan` (the walk itself runs on
its own task; `serverScan` models it running to completion). -/
def processRequest (st : ServerState) (req : Request) :
    Response × ServerState × Option String :=
  match req.method with
  | "scan" =>
    let pr := getStringParam req.params "path"
    match pr.2 with
    | some e => (⟨req.id, false, none, some e⟩, st, none)
    | none => (⟨req.id, true, some (.started true), none⟩, st, some pr.1)
  | "progress" =>
    (⟨req.id, true,
      some (.progressData st.isScanning st.progress.currentItemName
        st.progress.itemCount st.progress.totalSize), none⟩, st, none)
  | "cancel" =>
    (⟨req.id, true, some (.cancelled true), none⟩, cancelRequest st, none)
  | "directory" =>
    let path := (getStringParam req.params "path").1
    let depth := (getIntParam req.params "depth" 0).1
    match st.currentDir with
    | none => (⟨req.id, false, none, some "No scan completed"⟩, st, none)
    | some root =>
      match (if path = "" then some root else findDirectory root path) with
      | none => (⟨req.id, false, none, some "Directory not found"⟩, st, none)
      | some d =>
        (⟨req.id, true, some (.dirData (convertToDirInfo d depth)), none⟩,
         st, none)
  | m => (⟨req.id, false, none, some ("Unknown method: " ++ m)⟩, st, none)

/-- The per-connection request loop at the request level: after any response
is sent the handler reads the next frame, so every request in the sequence
is answered (only transport faults, which are below this level, end the
loop).  Spawned walks are left pending. -/
def serveRequests (st : ServerState) : List Request → List Response
  | [] => []
  | r :: rs =>
    (processRequest st r).1 :: serveRequests (processRequest st r).2.1 rs

/-! ### Framing (`handleConnection` in `protocol.go`)

A connection is a byte stream (`List Nat`); the request processor is
abstracted as a function from payload bytes to response payload bytes.  The
result is the list of response payloads the server writes back, in order.
The handler returns — dropping the connection — on a short read or a bad
delimiter; a zero or oversized length is logged and the loop `continue`s
with the stream positioned right after the 4 length bytes.  Fuel bounds the
iteration count; each iteration consumes at least four bytes, so
`List.length` of the stream is always enough (`runConn`). -/

def maxMsgLen : Nat := 100 * 1024 * 1024

/-- `binary.BigEndian.Uint32`. -/
def beU32 (b0 b1 b2 b3 : Nat) : Nat :=
  ((b0 * 256 + b1) * 256 + b2) * 256 + b3

def handleConn (process : List Nat → List Nat) :
    Nat → List Nat → List (List Nat)
  | 0, _ => []
  | fuel + 1, b0 :: b1 :: b2 :: b3 :: rest =>
    let len := beU32 b0 b1 b2 b3
    if len = 0 ∨ maxMsgLen < len then
      handleConn process fuel rest
    else if rest.length < len then []
    else
      match rest.drop len with
      | [] => []
      | nl :: rest' =>
        if nl = 10 then
          process (rest.take len) :: handleConn process fuel rest'
        else []
  | _ + 1, _ => []

/-- The handler run on a finite stream, with enough fuel to exhaust it. -/
def runConn (process : List Nat → List Nat) (stream : List Nat) :
    List (List Nat) :=
  handleConn process stream.length stream

/-! ### Helper functions and lemmas for the claim theorems -/

/-- Sum of the aggregate sizes of the subdirectories in a children list. -/
def childDirAggSizes : List Entry → Nat
  | [] => 0
  | .fileE _ _ _ _ :: es => childDirAggSizes es
  | .dirE n p f cs :: es => aggSize (.dirE n p f cs) + childDirAggSizes es

/-- Sum of the sizes of the files in a children list. -/
def ownedFileSizes : List Entry → Nat
  | [] => 0
  | .fileE _ _ _ s :: es => s + ownedFileSizes es
  | .dirE _ _ _ _ :: es => ownedFileSizes es

/-- Folding more deltas never decreases the accumulated counters. -/
theorem updateProgressFold_grow : ∀ (l : List CurrentProgress)
    (p : CurrentProgress),
    p.itemCount ≤ (updateProgressFold p l).itemCount ∧
    p.totalSize ≤ (updateProgressFold p l).totalSize := by
  intro l
  induction l with
  | nil => exact fun p => ⟨le_refl _, le_refl _⟩
  | cons d ds ih =>
    intro p
    have h := ih (updateProgressStep p d)
    simp only [updateProgressFold, List.foldl_cons, updateProgressStep]
      at h ⊢
    omega

/-! ### C1 — oversized or zero length frames -/

/-- C1 (counterexample): after a frame whose 4-byte length is zero, or
exceeds the 100 MiB maximum, the connection is not dropped — a later
well-formed frame on the same connection still gets a response.  The claim
says the connection closes with no further responses, which would force the
result `[]`. -/
theorem invalidLengthDropsConnection_counterexample :
    (maxMsgLen < beU32 6 64 0 1) ∧
    runConn (fun l => l) ([6, 64, 0, 1] ++ [0, 0, 0, 1, 65, 10]) = [[65]] ∧
    (beU32 0 0 0 0 = 0) ∧
    runConn (fun l => l) ([0, 0, 0, 0] ++ [0, 0, 0, 1, 65, 10]) = [[65]] :=
  ⟨by norm_num [beU32, maxMsgLen], rfl, rfl, rfl⟩

/-- C1 (amended): when a received 4-byte length is zero or exceeds the
configured maximum (100 MiB), the server sends no response for that frame,
but rather than dropping the connection it logs, skips the four length
bytes and continues reading the stream from the next byte. -/
theorem invalidLengthSkipsFrame (process : List Nat → List Nat) (fuel : Nat)
    (b0 b1 b2 b3 : Nat) (rest : List Nat)
    (h : beU32 b0 b1 b2 b3 = 0 ∨ maxMsgLen < beU32 b0 b1 b2 b3) :
    handleConn process (fuel + 1) (b0 :: b1 :: b2 :: b3 :: rest) =
      handleConn process fuel rest := by
  simp only [handleConn]
  rw [if_pos h]

theorem invalidLengthSkipsFrame_witness :
    (beU32 0 0 0 0 = 0 ∨ maxMsgLen < beU32 0 0 0 0) ∧
    handleConn (fun l => l) 3 [0, 0, 0, 0, 9, 9] =
      handleConn (fun l => l) 2 [9, 9] :=
  ⟨Or.inl rfl, invalidLengthSkipsFrame (fun l => l) 2 0 0 0 0 [9, 9]
    (Or.inl rfl)⟩

/-! ### C3 — the completion barrier's cancel -/

/-- C3 (counterexample): the first `WaitGroup.Cancel` succeeds, but a second
call is `close` of an already closed channel, a runtime fault — calling the
barrier's cancel N times for N ≥ 2 is not the same as calling it once. -/
theorem barrierCancelTwice_counterexample :
    (wgCancel initWG).isSome = true ∧ (wgCancel initWG).bind wgCancel = none :=
  ⟨rfl, rfl⟩

/-- C3 (amended): the barrier's cancel may be invoked at most once: a single
`Cancel` on a barrier whose channel is still open closes the channel, after
which `Wait` is released regardless of the outstanding count, while a second
`Cancel` faults.  Idempotent cancellation (N ≥ 1 calls behaving as one) is
provided one level up by `ParallelAnalyzer.Cancel`, whose `cancelled` guard
makes repeated calls no-ops. -/
theorem barrierCancelOnce :
    (∀ s : WaitGroup, s.cancelClosed = false →
       wgCancel s = some { s with cancelClosed := true } ∧
       waitUnblocked { s with cancelClosed := true } = true) ∧
    (∀ s : WaitGroup, s.cancelClosed = true → wgCancel s = none) ∧
    (∀ a : AnalyzerState, a.cancelled = false → a.wg.cancelClosed = false →
       analyzerCancel a = some ⟨true, { a.wg with cancelClosed := true }, true⟩ ∧
       analyzerCancel ⟨true, { a.wg with cancelClosed := true }, true⟩ =
         some ⟨true, { a.wg with cancelClosed := true }, true⟩) := by
  refine ⟨fun s h => ⟨?_, ?_⟩, fun s h => ?_, fun a h1 h2 => ⟨?_, ?_⟩⟩
  · simp [wgCancel, h]
  · simp [waitUnblocked]
  · simp [wgCancel, h]
  · simp [analyzerCancel, wgCancel, h1, h2]
  · simp [analyzerCancel]

theorem barrierCancelOnce_witness :
    ((⟨5, false, true⟩ : WaitGroup).cancelClosed = false) ∧
    (wgCancel ⟨5, false, true⟩ =
      some { (⟨5, false, true⟩ : WaitGroup) with cancelClosed := true } ∧
     waitUnblocked { (⟨5, false, true⟩ : WaitGroup) with
       cancelClosed := true } = true) :=
  ⟨rfl, barrierCancelOnce.1 ⟨5, false, true⟩ rfl⟩

/-! ### C7 — the aggregate-size equation -/

/-- C7: for every directory node (in particular every directory node of a
published scan tree), the aggregate size equals the sum of the aggregate
sizes of its immediate subdirectories plus the sizes of the files it
directly owns.  `aggSize` is the spec-modelled `UpdateStats` / `GetSize`
aggregation, which is recursive, so the equation holds at every node of
every tree. -/
theorem dirAggregateEquation : ∀ (n p : String) (f : Char) (cs : List Entry),
    aggSize (.dirE n p f cs) = childDirAggSizes cs + ownedFileSizes cs := by
  intro n p f cs
  simp only [aggSize]
  induction cs with
  | nil => rfl
  | cons e es ih =>
    cases e with
    | fileE n' p' f' s =>
      simp only [aggSizeList, aggSize, childDirAggSizes, ownedFileSizes]
      omega
    | dirE n' p' f' cs' =>
      simp only [aggSizeList, childDirAggSizes, ownedFileSizes]
      omega

/-! ### C4 — progress monotonicity and the never-reset accumulator -/

/-- Folding on top of an accumulator adds exactly the from-zero fold of the
same deltas: the counters of any snapshot split into the carried-over part
and the current scan's own accumulation. -/
theorem updateProgressFold_add : ∀ (l : List CurrentProgress)
    (p : CurrentProgress),
    (updateProgressFold p l).itemCount =
      p.itemCount + (updateProgressFold zeroProgress l).itemCount ∧
    (updateProgressFold p l).totalSize =
      p.totalSize + (updateProgressFold zeroProgress l).totalSize := by
  intro l
  induction l with
  | nil => intro p; simp [updateProgressFold, zeroProgress]
  | cons d ds ih =>
    intro p
    have h1 := ih (updateProgressStep p d)
    have h2 := ih (updateProgressStep zeroProgress d)
    simp only [updateProgressFold, List.foldl_cons, updateProgressStep,
      zeroProgress] at h1 h2 ⊢
    omega

/-- C4 (counterexample): the analyzer's cumulative accumulator `a.progress`
is never reset — `ResetProgress` has no caller — so a second scan's
published counts resume from the first scan's totals.  After a first scan
whose walk emitted one delta of 2 items / 3 bytes, starting a second scan
zeroes only the server-side snapshot; the first snapshot published during
the second scan (one delta of 1 item) reports 3 items, not the 1 item a
from-zero restart would show, refuting "not carried over from a previous
scan". -/
theorem progressResetPerScan_counterexample :
    (scanProgressRun initServer "a" [⟨"a", 2, 3⟩]).isScanning = false ∧
    (scanBegin (scanProgressRun initServer "a" [⟨"a", 2, 3⟩]) "b").1.progress
      = zeroProgress ∧
    (scanBegin (scanProgressRun initServer "a" [⟨"a", 2, 3⟩])
        "b").1.analyzerProgress.itemCount = 2 ∧
    (publishedSnapshot
        (scanBegin (scanProgressRun initServer "a" [⟨"a", 2, 3⟩])
          "b").1.analyzerProgress [⟨"b", 1, 4⟩] 1).itemCount = 3 ∧
    (publishedSnapshot zeroProgress [⟨"b", 1, 4⟩] 1).itemCount = 1 :=
  ⟨rfl, rfl, rfl, rfl, rfl⟩

/-- C4 (amended): within one scan the published snapshots' cumulative item
count and total size are non-decreasing, from whatever value the
accumulator holds when the scan begins.  At the start of a scan the
server-side snapshot `s.progress` is zeroed, but the analyzer's cumulative
accumulator is left untouched — no request handler changes it and nothing
calls `ResetProgress` — so every snapshot of a later scan carries the
earlier totals: it equals the accumulator at scan start plus the scan's own
from-zero accumulation, rather than starting from zero. -/
theorem progressMonotoneCarryOver :
    (∀ (acc : CurrentProgress) (ds : List CurrentProgress) (i j : Nat),
       i ≤ j →
       (publishedSnapshot acc ds i).itemCount ≤
         (publishedSnapshot acc ds j).itemCount ∧
       (publishedSnapshot acc ds i).totalSize ≤
         (publishedSnapshot acc ds j).totalSize) ∧
    (∀ (st : ServerState) (path : String), st.isScanning = false →
       (scanBegin st path).1.progress = zeroProgress ∧
       (scanBegin st path).1.analyzerProgress = st.analyzerProgress) ∧
    (∀ (st : ServerState) (req : Request),
       (processRequest st req).2.1.analyzerProgress = st.analyzerProgress) ∧
    (∀ (st : ServerState) (path : String) (ds : List CurrentProgress),
       st.isScanning = false →
       (scanProgressRun st path ds).analyzerProgress =
         updateProgressFold st.analyzerProgress ds) ∧
    (∀ (acc : CurrentProgress) (ds : List CurrentProgress) (k : Nat),
       (publishedSnapshot acc ds k).itemCount =
         acc.itemCount + (publishedSnapshot zeroProgress ds k).itemCount ∧
       (publishedSnapshot acc ds k).totalSize =
         acc.totalSize + (publishedSnapshot zeroProgress ds k).totalSize) := by
  refine ⟨?_, ?_, ?_, ?_, ?_⟩
  · intro acc ds i j hij
    have hsplit : ds.take j = ds.take i ++ (ds.take j).drop i := by
      conv_lhs => rw [← List.take_append_drop i (ds.take j)]
      rw [List.take_take, Nat.min_eq_left hij]
    have hgrow := updateProgressFold_grow ((ds.take j).drop i)
      (updateProgressFold acc (ds.take i))
    simp only [publishedSnapshot]
    rw [hsplit]
    simp only [updateProgressFold, List.foldl_append] at hgrow ⊢
    exact hgrow
  · intro st path h
    constructor <;> simp [scanBegin, h]
  · intro st req
    obtain ⟨id, m, params⟩ := req
    simp only [processRequest]
    repeat' split
    all_goals simp [cancelRequest]
    all_goals split <;> simp
  · intro st path ds h
    simp [scanProgressRun, scanBegin, h]
  · intro acc ds k
    exact updateProgressFold_add (ds.take k) acc

theorem progressMonotoneCarryOver_witness :
    ((1 : Nat) ≤ 2 ∧
     ((publishedSnapshot ⟨"z", 7, 9⟩ [⟨"a", 2, 3⟩, ⟨"b", 1, 4⟩] 1).itemCount
        ≤ (publishedSnapshot ⟨"z", 7, 9⟩
            [⟨"a", 2, 3⟩, ⟨"b", 1, 4⟩] 2).itemCount ∧
      (publishedSnapshot ⟨"z", 7, 9⟩ [⟨"a", 2, 3⟩, ⟨"b", 1, 4⟩] 1).totalSize
        ≤ (publishedSnapshot ⟨"z", 7, 9⟩
            [⟨"a", 2, 3⟩, ⟨"b", 1, 4⟩] 2).totalSize)) ∧
    (initServer.isScanning = false ∧
     ((scanBegin initServer "p").1.progress = zeroProgress ∧
      (scanBegin initServer "p").1.analyzerProgress =
        initServer.analyzerProgress)) :=
  ⟨⟨by norm_num, progressMonotoneCarryOver.1 ⟨"z", 7, 9⟩
      [⟨"a", 2, 3⟩, ⟨"b", 1, 4⟩] 1 2 (by norm_num)⟩,
   ⟨rfl, progressMonotoneCarryOver.2.1 initServer "p" rfl⟩⟩

/-! ### C2 — a scan request while already scanning -/

/-- C2: a `scan` request with a well-typed path is answered started-true
regardless of the server state; a second `scan` call entered while the first
walk is active returns immediately leaving the state untouched (the active
walk still belongs to the first path), and the finished walk publishes the
tree for the first request's path. -/
theorem scanWhileScanningNoOp :
    (∀ (st : ServerState) (id : String)
       (params : Option (List (String × PValue))) (p : String),
       getStringParam params "path" = (p, none) →
       (processRequest st ⟨id, "scan", params⟩).1 =
         ⟨id, true, some (.started true), none⟩) ∧
    (∀ (st : ServerState) (pA pB : String)
       (fsys : String → Bool × List FSNode),
       st.isScanning = false →
       (scanBegin st pA).2 = true ∧
       (scanBegin (scanBegin st pA).1 pB).2 = false ∧
       (scanBegin (scanBegin st pA).1 pB).1 = (scanBegin st pA).1 ∧
       (scanBegin st pA).1.activePath = some pA ∧
       (scanFinish fsys (scanBegin (scanBegin st pA).1 pB).1).currentDir =
         some (analyzeDir st.analyzerCancelled fsys pA)) := by
  constructor
  · intro st id params p h
    simp only [processRequest]
    rw [h]
  · intro st pA pB fsys h
    refine ⟨?_, ?_, ?_, ?_, ?_⟩ <;> simp [scanBegin, scanFinish, h]

theorem scanWhileScanningNoOp_witness :
    (getStringParam (some [("path", PValue.str "a")]) "path" = ("a", none) ∧
     (processRequest initServer
       ⟨"1", "scan", some [("path", PValue.str "a")]⟩).1 =
       ⟨"1", true, some (.started true), none⟩) ∧
    (initServer.isScanning = false ∧
     ((scanBegin initServer "a").2 = true ∧
      (scanBegin (scanBegin initServer "a").1 "b").2 = false ∧
      (scanBegin (scanBegin initServer "a").1 "b").1 =
        (scanBegin initServer "a").1 ∧
      (scanBegin initServer "a").1.activePath = some "a" ∧
      (scanFinish (fun _ => (false, []))
          (scanBegin (scanBegin initServer "a").1 "b").1).currentDir =
        some (analyzeDir initServer.analyzerCancelled
          (fun _ => (false, [])) "a"))) :=
  ⟨⟨rfl, scanWhileScanningNoOp.1 initServer "1"
      (some [("path", PValue.str "a")]) "a" rfl⟩,
   ⟨rfl, scanWhileScanningNoOp.2 initServer "a" "b"
      (fun _ => (false, [])) rfl⟩⟩

/-! ### C5 — parameter validation -/

def demoTree : Entry := .dirE "root" "root" ' ' [.fileE "a" "root/a" ' ' 5]

def demoServed : ServerState :=
  ⟨false, zeroProgress, zeroProgress, some demoTree, false, false, none⟩

/-- C5 (counterexample): not every mistyped parameter yields a failure
response.  The `directory` handler discards the errors of both of its
parameter reads: with a completed scan held, a `directory` request whose
`path` parameter is a number — which `getStringParam` rejects — is answered
with success, the mistyped path being silently treated as the empty path. -/
theorem paramErrorAlwaysFails_counterexample :
    (getStringParam (some [("path", PValue.num 123)]) "path").2 =
      some "parameter path must be string" ∧
    (processRequest demoServed
      ⟨"d1", "directory", some [("path", PValue.num 123)]⟩).1.success =
      true :=
  ⟨rfl, rfl⟩

/-- C5 (amended): for `scan` — the only method with a required parameter — a
missing or mistyped `path` yields a request-level failure response carrying
the error message, the server state is untouched and no walk is spawned;
the loop then goes on serving the connection, and a subsequent `progress`
request is answered correctly.  (The `directory` method instead ignores its
parameter errors, substituting the empty path and depth 0.) -/
theorem scanParamErrorKeepsConnection :
    (∀ (st : ServerState) (id : String)
       (params : Option (List (String × PValue))) (e : String),
       (getStringParam params "path").2 = some e →
       processRequest st ⟨id, "scan", params⟩ =
         (⟨id, false, none, some e⟩, st, none)) ∧
    (∀ (st : ServerState) (r : Request) (rs : List Request),
       serveRequests st (r :: rs) =
         (processRequest st r).1 ::
           serveRequests (processRequest st r).2.1 rs) ∧
    (∀ (st : ServerState) (id1 id2 : String)
       (params : Option (List (String × PValue))) (e : String),
       (getStringParam params "path").2 = some e →
       serveRequests st [⟨id1, "scan", params⟩, ⟨id2, "progress", none⟩] =
         [⟨id1, false, none, some e⟩,
          ⟨id2, true, some (.progressData st.isScanning
            st.progress.currentItemName st.progress.itemCount
            st.progress.totalSize), none⟩]) := by
  refine ⟨?_, ?_, ?_⟩
  · intro st id params e h
    simp only [processRequest]
    rw [h]
  · intro st r rs
    rfl
  · intro st id1 id2 params e h
    have h1 : processRequest st ⟨id1, "scan", params⟩ =
        (⟨id1, false, none, some e⟩, st, none) := by
      simp only [processRequest]
      rw [h]
    simp only [serveRequests, h1]
    simp [processRequest]

theorem scanParamErrorKeepsConnection_witness :
    ((getStringParam (some []) "path").2 = some "missing parameter: path" ∧
     serveRequests initServer
       [⟨"s1", "scan", some []⟩, ⟨"p1", "progress", none⟩] =
       [⟨"s1", false, none, some "missing parameter: path"⟩,
        ⟨"p1", true, some (.progressData initServer.isScanning
          initServer.progress.currentItemName initServer.progress.itemCount
          initServer.progress.totalSize), none⟩]) :=
  ⟨rfl, scanParamErrorKeepsConnection.2.2 initServer "s1" "p1" (some [])
    "missing parameter: path" rfl⟩

/-! ### C6 — scheduling equivalence -/

/-- C6: every outcome of the bounded-parallel walk is `PermTree`-related to
the canonical parallel result (completion order only permutes children), the
canonical parallel result is `PermTree`-related to the sequential result on
the same input tree, and `PermTree`-related trees — hence each pair of
corresponding nodes, since `PermTree` relates the subtrees node by node —
have identical aggregate sizes and item counts. -/
theorem schedulingEquivalence :
    (∀ (c : Bool) (ig : String → String → Bool) (path name : String)
       (rerr : Bool) (ents : List FSNode),
       PermTree (parProcessDir c ig path name rerr ents)
         (seqProcessDir c ig path name rerr ents)) ∧
    (∀ e e' : Entry, PermTree e e' →
       aggSize e = aggSize e' ∧ aggCount e = aggCount e') :=
  ⟨parSeq_tree, permTree_agg⟩

/-- A small fixture tree: files and subdirectories mixed. -/
def demoFS : List FSNode :=
  [.file "a" 3 false false,
   .dir "d" false [.file "b" 4 false false, .dir "dd" false []],
   .file "c" 5 false true]

theorem schedulingEquivalence_witness :
    aggSize (parProcessDir false (fun _ _ => false) "r" "r" false demoFS) =
      aggSize (seqProcessDir false (fun _ _ => false) "r" "r" false demoFS) ∧
    aggCount (parProcessDir false (fun _ _ => false) "r" "r" false demoFS) =
      aggCount (seqProcessDir false (fun _ _ => false) "r" "r" false demoFS)
    :=
  schedulingEquivalence.2 _ _
    (schedulingEquivalence.1 false (fun _ _ => false) "r" "r" false demoFS)

/-! ### C8 — depth truncation in the directory method -/

mutual

/-- Height of a serialized subtree: 0 for a node without children. -/
def dirInfoHeight : DirInfo → Nat
  | .mk _ _ _ _ _ _ cs => dirInfoHeightL cs

/-- Height of a forest of serialized subtrees, counting the edge to each
root. -/
def dirInfoHeightL : List DirInfo → Nat
  | [] => 0
  | d :: ds => max (1 + dirInfoHeight d) (dirInfoHeightL ds)

end

mutual

/-- `convertToDirInfo` with depth budget `d` yields a tree of height at most
`d.toNat`. -/
theorem convert_height : ∀ (item : Entry) (d : Int),
    dirInfoHeight (convertToDirInfo item d) ≤ d.toNat
  | .fileE n p f s, d => by
    simp [convertToDirInfo, dirInfoHeight, dirInfoHeightL]
  | .dirE n p f cs, d => by
    by_cases hd : 0 < d
    · have h := convertChildren_height cs (d - 1)
      simp only [convertToDirInfo, dirInfoHeight, if_pos hd]
      omega
    · simp only [convertToDirInfo, dirInfoHeight, if_neg hd, dirInfoHeightL]
      omega

/-- The converted children of depth budget `d` form a forest of height at
most `d.toNat + 1`. -/
theorem convertChildren_height : ∀ (cs : List Entry) (d : Int),
    dirInfoHeightL (convertChildren cs d) ≤ d.toNat + 1
  | [], d => by simp [convertChildren, dirInfoHeightL]
  | e :: es, d => by
    have h1 := convert_height e d
    have h2 := convertChildren_height es d
    simp only [convertChildren, dirInfoHeightL]
    omega

end

theorem convertChildren_length : ∀ (cs : List Entry) (d : Int),
    (convertChildren cs d).length = cs.length := by
  intro cs d
  induction cs with
  | nil => simp [convertChildren]
  | cons e es ih => simp [convertChildren, ih]

theorem convert_zero_children : ∀ (e : Entry),
    (convertToDirInfo e 0).children = [] := by
  intro e
  cases e with
  | fileE n p f s => simp [convertToDirInfo]
  | dirE n p f cs => simp [convertToDirInfo]

/-- C8: the serialized subtree the `directory` method returns is truncated
at the requested depth — its height is bounded by the depth budget, so nodes
at the limit come back without children — and at depth 1 a directory is
returned with exactly its immediate children, each of which is childless. -/
theorem directoryDepthTruncation :
    (∀ (item : Entry) (d : Int),
       dirInfoHeight (convertToDirInfo item d) ≤ d.toNat) ∧
    (∀ (n p : String) (f : Char) (cs : List Entry),
       (convertToDirInfo (.dirE n p f cs) 1).children =
         convertChildren cs 0 ∧
       (convertChildren cs 0).length = cs.length ∧
       (∀ di ∈ convertChildren cs 0, di.children = [])) := by
  refine ⟨convert_height, fun n p f cs => ⟨?_, convertChildren_length cs 0,
    ?_⟩⟩
  · simp [convertToDirInfo]
  · induction cs with
    | nil => simp [convertChildren]
    | cons e es ih =>
      intro di hdi
      simp only [convertChildren, List.mem_cons] at hdi
      rcases hdi with h | h
      · rw [h]
        exact convert_zero_children e
      · exact ih di h

theorem directoryDepthTruncation_witness :
    dirInfoHeight (convertToDirInfo demoTree 1) ≤ (1 : Int).toNat ∧
    (convertToDirInfo (.dirE "r" "r" ' ' [demoTree]) 1).children =
      convertChildren [demoTree] 0 ∧
    (convertChildren [demoTree] 0).length = 1 ∧
    (convertToDirInfo demoTree 0).children = [] :=
  ⟨directoryDepthTruncation.1 demoTree 1,
   (directoryDepthTruncation.2 "r" "r" ' ' [demoTree]).1,
   (directoryDepthTruncation.2 "r" "r" ' ' [demoTree]).2.1,
   (directoryDepthTruncation.2 "r" "r" ' ' [demoTree]).2.2
     (convertToDirInfo demoTree 0) (by simp [convertChildren])⟩

/-! ### C9 — the cancelled flag after the cancel method -/

/-- C9 (counterexample): a `cancel` request on a server on which no scan has
ever started leaves the analyzer's cancelled flag clear — the handler calls
`analyzer.Cancel()` only when a cancel function is installed, and only
`Server.scan` installs one — so the next scan walks normally: its published
root is unflagged and holds a child, not the errored childless root the
claim predicts for every scan after any `cancel`. -/
theorem cancelledFlagPersists_counterexample :
    (cancelRequest initServer).analyzerCancelled = false ∧
    ((serverScan (fun _ => (false, [.file "a" 5 false false]))
        (cancelRequest initServer) "p").currentDir).map Entry.flag =
      some ' ' ∧
    ((serverScan (fun _ => (false, [.file "a" 5 false false]))
        (cancelRequest initServer) "p").currentDir).map
        (fun e => e.childList.length) = some 1 := by
  refine ⟨rfl, ?_, ?_⟩ <;>
    simp [serverScan, scanBegin, cancelRequest, initServer, scanFinish,
      analyzeDir, parProcessDir, parLoop, getDirFlag, Entry.flag,
      Entry.childList, getFlag]

/-- C9 (amended): once `cancel` is received at a point where some scan had
already started (so a cancel function is installed), the analyzer's
cancelled flag is set, and no server operation ever clears it again —
`ResetProgress` is never invoked.  Every subsequent scan request is still
answered started-true, but its walk returns immediately with a root flagged
errored, item count 1 and no children, and that tree is published.  A
`cancel` arriving before any scan ever started is a no-op on the flag and
later scans proceed normally. -/
theorem cancelledFlagPersists :
    (∀ st : ServerState, st.cancelFuncSet = true →
       (cancelRequest st).analyzerCancelled = true) ∧
    (∀ (st : ServerState) (req : Request), st.analyzerCancelled = true →
       (processRequest st req).2.1.analyzerCancelled = true) ∧
    (∀ (st : ServerState) (fsys : String → Bool × List FSNode)
       (path : String), st.analyzerCancelled = true →
       (serverScan fsys st path).analyzerCancelled = true) ∧
    (∀ (st : ServerState) (id : String)
       (params : Option (List (String × PValue))) (p : String),
       getStringParam params "path" = (p, none) →
       (processRequest st ⟨id, "scan", params⟩).1 =
         ⟨id, true, some (.started true), none⟩) ∧
    (∀ (st : ServerState) (fsys : String → Bool × List FSNode)
       (path : String), st.analyzerCancelled = true →
       st.isScanning = false →
       (serverScan fsys st path).currentDir =
         some (.dirE (baseName path) path '!' []) ∧
       aggCount (.dirE (baseName path) path '!' []) = 1) := by
  refine ⟨?_, ?_, ?_, ?_, ?_⟩
  · intro st h
    simp [cancelRequest, h]
  · intro st req h
    obtain ⟨id, m, params⟩ := req
    simp only [processRequest]
    repeat' split
    all_goals simp [cancelRequest, h]
    all_goals split <;> simp [h]
  · intro st fsys path h
    by_cases hs : st.isScanning <;>
      simp [serverScan, scanBegin, scanFinish, hs, h]
  · intro st id params p h
    simp only [processRequest]
    rw [h]
  · intro st fsys path h hs
    constructor
    · simp [serverScan, scanBegin, hs, scanFinish, analyzeDir, h,
        parProcessDir]
    · simp [aggCount, aggCountList]

/-- A server state in which a scan has been cancelled: flag set, idle. -/
def cancelledSt : ServerState :=
  ⟨false, zeroProgress, zeroProgress, none, false, true, none⟩

theorem cancelledFlagPersists_witness :
    (cancelledSt.analyzerCancelled = true ∧ cancelledSt.isScanning = false) ∧
    ((serverScan (fun _ => (false, [.file "a" 5 false false])) cancelledSt
        "p").currentDir = some (.dirE (baseName "p") "p" '!' []) ∧
     aggCount (.dirE (baseName "p") "p" '!' []) = 1) :=
  ⟨⟨rfl, rfl⟩, cancelledFlagPersists.2.2.2.2 cancelledSt
    (fun _ => (false, [.file "a" 5 false false])) "p" rfl rfl⟩

/-! ### C10 — scans over an unlistable root -/

/-- C10: when the root listing fails, the scan request is still answered
started-true, the walk completes with a root flagged errored, item count 1
and no children, that tree is published as the current tree, and a
subsequent `directory` query against it succeeds. -/
theorem unlistableRootScan :
    ∀ (st : ServerState) (fsys : String → Bool × List FSNode)
      (path id id2 : String) (params : Option (List (String × PValue))),
      st.isScanning = false → st.analyzerCancelled = false →
      (fsys path).1 = true →
      (getStringParam params "path" = (path, none) →
        (processRequest st ⟨id, "scan", params⟩).1 =
          ⟨id, true, some (.started true), none⟩) ∧
      (serverScan fsys st path).currentDir =
        some (.dirE (baseName path) path '!' []) ∧
      aggCount (.dirE (baseName path) path '!' []) = 1 ∧
      (processRequest (serverScan fsys st path) ⟨id2, "directory", none⟩).1 =
        ⟨id2, true, some (.dirData (convertToDirInfo
          (.dirE (baseName path) path '!' []) 0)), none⟩ := by
  intro st fsys path id id2 params hs hc hr
  have h2 : (serverScan fsys st path).currentDir =
      some (.dirE (baseName path) path '!' []) := by
    simp [serverScan, scanBegin, hs, scanFinish, analyzeDir, hc, hr,
      parProcessDir]
  refine ⟨?_, h2, ?_, ?_⟩
  · intro hp
    simp only [processRequest]
    rw [hp]
  · simp [aggCount, aggCountList]
  · simp only [processRequest, getStringParam, getIntParam]
    rw [h2]
    simp

/-- An ambient filesystem on which every listing fails. -/
def demoBadFS : String → Bool × List FSNode := fun _ => (true, [])

theorem unlistableRootScan_witness :
    ((demoBadFS "bad").1 = true ∧ initServer.isScanning = false ∧
     initServer.analyzerCancelled = false) ∧
    ((serverScan demoBadFS initServer "bad").currentDir =
       some (.dirE (baseName "bad") "bad" '!' []) ∧
     (processRequest (serverScan demoBadFS initServer "bad")
        ⟨"d", "directory", none⟩).1 =
       ⟨"d", true, some (.dirData (convertToDirInfo
         (.dirE (baseName "bad") "bad" '!' []) 0)), none⟩) :=
  ⟨⟨rfl, rfl, rfl⟩,
   ⟨(unlistableRootScan initServer demoBadFS "bad" "s" "d" none
       rfl rfl rfl).2.1,
    (unlistableRootScan initServer demoBadFS "bad" "s" "d" none
       rfl rfl rfl).2.2.2⟩⟩

end Gdu
